import Mathlib

/-!
# Verification of the `yal` directory-listing tool

A shallow embedding of `src/main.rs` (a single-file Rust program that lists a
directory with icons, permissions, owner/group names, and fuzzy modification
times), together with proofs about the claims of its specification.

Conventions of the embedding:
* Rust `String`s are Lean `String`s.  Rust's `str::len` counts UTF-8 bytes and
  Lean's `String.length` counts characters; every string whose length the
  program measures (octal permission strings, names from the identity
  databases, duration texts) is treated as character-counted.
* Rust `to_lowercase` is modelled by the ASCII case mapping `Char.toLower`
  (the program only compares against ASCII keywords); the character-level
  string helpers (`trim`, `split`, `starts_with`) are spelled out over the
  character list to keep every definition kernel-evaluable.
* Machine integers (`u32`, `u64`) are modelled as `Nat`; timestamps are
  seconds since the UNIX epoch as `Int` (`SystemTime::duration_since` fails
  exactly when the argument is later than the receiver, which the `Int`
  subtraction makes explicit).
* Fallible operations (metadata reads, modification-time reads) are `Option`s.
-/

/-- Configuration settings for the file lister (`struct Config`). -/
structure Config where
  show_icons : Bool
  show_permissions : Bool
  show_owner : Bool
  show_group : Bool
  show_modified : Bool
  use_fuzzy_time : Bool
  column_format : Bool
  column_order : List String
  sort_dirs_first : Bool
  show_hidden : Bool
  long_format : Bool
deriving DecidableEq

/-- The `impl Default for Config` defaults. -/
def default_config : Config where
  show_icons := true
  show_permissions := true
  show_owner := true
  show_group := true
  show_modified := true
  use_fuzzy_time := true
  column_format := true
  column_order := ["icon", "permissions", "owner", "group", "modified", "name"]
  sort_dirs_first := true
  show_hidden := false
  long_format := false

/-- Rust `str::to_lowercase`, restricted to the ASCII case mapping the
program relies on (it only compares against ASCII keywords). -/
def lower_string (s : String) : String :=
  String.mk (s.data.map Char.toLower)

/-- Rust `str::starts_with(char)`. -/
def starts_with_char (s : String) (c : Char) : Bool :=
  match s.data with
  | [] => false
  | x :: _ => x = c

/-- Rust `str::trim`: strip leading and trailing whitespace. -/
def trim_chars (s : String) : String :=
  String.mk (((s.data.dropWhile Char.isWhitespace).reverse.dropWhile
    Char.isWhitespace).reverse)

/-- Core of Rust `str::split(char)`: cut the character list at every
separator, keeping empty segments. -/
def split_char_aux (sep : Char) : List Char → List Char → List String
  | [], acc => [String.mk acc.reverse]
  | c :: rest, acc =>
    if c = sep then String.mk acc.reverse :: split_char_aux sep rest []
    else split_char_aux sep rest (c :: acc)

/-- Rust `str::split(char)` (also `str::lines` for `sep := newline`, up to
the trailing empty segment, which every consumer of this function skips). -/
def split_char (s : String) (sep : Char) : List String :=
  split_char_aux sep s.data []

/-- Rust `str::split_once(char)`: the pieces before and after the first
occurrence of the separator; `none` when the separator does not occur. -/
def split_once (s : String) (c : Char) : Option (String × String) :=
  match s.data.dropWhile (fun x => x ≠ c) with
  | [] => none
  | _ :: tail => some (String.mk (s.data.takeWhile (fun x => x ≠ c)), String.mk tail)

/-- Rust `Config::parse_bool`: case-insensitive boolean spellings, anything else
is `false`. -/
def parse_bool (value : String) : Bool :=
  match lower_string value with
  | "true" | "yes" | "1" | "on" | "enabled" => true
  | "false" | "no" | "0" | "off" | "disabled" => false
  | _ => false

/-- One iteration of the loop in `Config::parse_config`: apply one
`key=value` line to the configuration.  Comments, blank lines, lines without
`=` and unknown keys leave the configuration unchanged. -/
def apply_config_line (cfg : Config) (line : String) : Config :=
  let l := trim_chars line
  if l.isEmpty || starts_with_char l '#' then cfg
  else
    match split_once l '=' with
    | none => cfg
    | some (k, v) =>
      let key := lower_string (trim_chars k)
      let value := trim_chars v
      if key = "show_icons" then { cfg with show_icons := parse_bool value }
      else if key = "show_permissions" then { cfg with show_permissions := parse_bool value }
      else if key = "show_owner" then { cfg with show_owner := parse_bool value }
      else if key = "show_group" then { cfg with show_group := parse_bool value }
      else if key = "show_modified" then { cfg with show_modified := parse_bool value }
      else if key = "use_fuzzy_time" then { cfg with use_fuzzy_time := parse_bool value }
      else if key = "column_format" then { cfg with column_format := parse_bool value }
      else if key = "sort_dirs_first" then { cfg with sort_dirs_first := parse_bool value }
      else if key = "show_hidden" then { cfg with show_hidden := parse_bool value }
      else if key = "long_format" then { cfg with long_format := parse_bool value }
      else if key = "column_order" then
        { cfg with column_order :=
            ((split_char value ',').map trim_chars).filter (fun s => ¬ s.isEmpty) }
      else cfg

/-- Rust `Config::parse_config`: fold the line handler over the lines of the file.
(Rust's `str::lines` splits at newlines; a final empty segment and carriage
returns are neutralized by the blank-line skip and the trims.) -/
def parse_config (cfg : Config) (contents : String) : Config :=
  (split_char contents '\n').foldl apply_config_line cfg

/-- The `struct NameCache`: id-to-name mappings for users and groups, built once
from `/etc/passwd` and `/etc/group`.  The maps are modelled as association
lists; construction (I/O) is outside the embedding, lookups are below. -/
structure NameCache where
  users : List (Nat × String)
  groups : List (Nat × String)
deriving DecidableEq

/-- Rust `NameCache::get_user_name`: cached name, falling back to the decimal
string of the uid.  Takes the cache immutably (`&self` in the source) and
returns only the name. -/
def NameCache.get_user_name (cache : NameCache) (uid : Nat) : String :=
  match cache.users.lookup uid with
  | some name => name
  | none => Nat.repr uid

/-- Rust `NameCache::get_group_name`: cached name, falling back to the decimal
string of the gid. -/
def NameCache.get_group_name (cache : NameCache) (gid : Nat) : String :=
  match cache.groups.lookup gid with
  | some name => name
  | none => Nat.repr gid

/-- The `format_duration_since` fuzzy branch body: bucket the elapsed seconds
(the source's `match seconds` with inclusive ranges). -/
def fuzzy_text (seconds : Nat) : String :=
  if seconds ≤ 59 then
    if seconds = 0 then "now"
    else if seconds = 1 then "1 second"
    else Nat.repr seconds ++ " seconds"
  else if seconds ≤ 3599 then
    let minutes := seconds / 60
    if minutes = 1 then "1 minute" else Nat.repr minutes ++ " minutes"
  else if seconds ≤ 86399 then
    let hours := seconds / 3600
    if hours = 1 then "1 hour" else Nat.repr hours ++ " hours"
  else if seconds ≤ 604799 then
    let days := seconds / 86400
    if days = 1 then "1 day" else Nat.repr days ++ " days"
  else if seconds ≤ 2629743 then
    let weeks := seconds / 604800
    if weeks = 1 then "1 week" else Nat.repr weeks ++ " weeks"
  else if seconds ≤ 31556925 then
    let months := seconds / 2629744
    if months = 1 then "1 month" else Nat.repr months ++ " months"
  else
    let years := seconds / 31556926
    if years = 1 then "1 year" else Nat.repr years ++ " years"

/-- Rust `format_duration_since`.  Here `modified` and `now` are seconds since the UNIX
epoch.  Non-fuzzy: `modified.duration_since(UNIX_EPOCH)` succeeds iff
`0 ≤ modified` and the result is decomposed relative to the epoch.  Fuzzy:
`now.duration_since(modified)` fails iff `now < modified` (then `"future"`),
otherwise the elapsed seconds are bucketed. -/
def format_duration_since (modified now : Int) (use_fuzzy : Bool) : String :=
  if use_fuzzy = false then
    if 0 ≤ modified then
      let secs := modified.toNat
      let days := secs / 86400
      let hours := secs % 86400 / 3600
      let minutes := secs % 3600 / 60
      Nat.repr (days % 365) ++ "d " ++ Nat.repr hours ++ "h:" ++ Nat.repr minutes ++ "m"
    else "unknown"
  else
    if now < modified then "future"
    else fuzzy_text (now - modified).toNat

/-- Folder glyph returned for every directory (literal from the source file). -/
def glyph_folder : String := String.mk [Char.ofNat 0xF0, Char.ofNat 0x178, Char.ofNat 0x201C]
def glyph_rust : String := String.mk [Char.ofNat 0xF0, Char.ofNat 0x178, Char.ofNat 0xA6, Char.ofNat 0x20AC]
def glyph_python : String := String.mk [Char.ofNat 0xF0, Char.ofNat 0x178]
def glyph_javascript : String := String.mk [Char.ofNat 0xF3, Char.ofNat 0xB0, Char.ofNat 0x152, Char.ofNat 0x17E]
def glyph_typescript : String := String.mk [Char.ofNat 0xF3, Char.ofNat 0xB0, Char.ofNat 0x203A, Char.ofNat 0xA6]
def glyph_html5 : String := String.mk [Char.ofNat 0xF3, Char.ofNat 0xB0, Char.ofNat 0x152]
def glyph_css3 : String := String.mk [Char.ofNat 0xF3, Char.ofNat 0xB0, Char.ofNat 0x152, Char.ofNat 0x153]
def glyph_json : String := String.mk [Char.ofNat 0xF3, Char.ofNat 0xB0, Char.ofNat 0x2DC, Char.ofNat 0xA6]
def glyph_markdown : String := String.mk [Char.ofNat 0xF3, Char.ofNat 0xB0, Char.ofNat 0x201D]
def glyph_text : String := String.mk [Char.ofNat 0xF3, Char.ofNat 0xB0, Char.ofNat 0x2C6, Char.ofNat 0x2122]
def glyph_pdf : String := String.mk [Char.ofNat 0xF3, Char.ofNat 0xB0, Char.ofNat 0x2C6, Char.ofNat 0xA6]
def glyph_archive : String := String.mk [Char.ofNat 0xF0, Char.ofNat 0x178, Char.ofNat 0x2014, Char.ofNat 0x153, Char.ofNat 0xEF, Char.ofNat 0xB8]
def glyph_image : String := String.mk [Char.ofNat 0xF0, Char.ofNat 0x178, Char.ofNat 0x2013, Char.ofNat 0xBC, Char.ofNat 0xEF, Char.ofNat 0xB8]
def glyph_audio : String := String.mk [Char.ofNat 0xF0, Char.ofNat 0x178, Char.ofNat 0x17D, Char.ofNat 0xB5]
def glyph_video : String := String.mk [Char.ofNat 0xF0, Char.ofNat 0x178, Char.ofNat 0x17D, Char.ofNat 0xAC]
def glyph_application : String := String.mk [Char.ofNat 0xE2, Char.ofNat 0x161, Char.ofNat 0x2122, Char.ofNat 0xEF, Char.ofNat 0xB8]
def glyph_settings : String := String.mk [Char.ofNat 0xE2, Char.ofNat 0x161, Char.ofNat 0x2122, Char.ofNat 0xEF, Char.ofNat 0xB8]
def glyph_clang : String := String.mk [Char.ofNat 0xF3, Char.ofNat 0xB0, Char.ofNat 0x2122, Char.ofNat 0xB1]
def glyph_cpp : String := String.mk [Char.ofNat 0xF3, Char.ofNat 0xB0, Char.ofNat 0x2122, Char.ofNat 0xB2]
def glyph_java : String := String.mk [Char.ofNat 0xF3, Char.ofNat 0xB0, Char.ofNat 0xAC, Char.ofNat 0xB7]
def glyph_php : String := String.mk [Char.ofNat 0xF3, Char.ofNat 0xB0, Char.ofNat 0x152, Char.ofNat 0x178]
def glyph_ruby : String := String.mk [Char.ofNat 0xF3, Char.ofNat 0xB0, Char.ofNat 0xB4, Char.ofNat 0xAD]
def glyph_golang : String := String.mk [Char.ofNat 0xF3, Char.ofNat 0xB0, Char.ofNat 0x178, Char.ofNat 0x201C]
def glyph_terminal : String := String.mk [Char.ofNat 0xF3, Char.ofNat 0xB0, Char.ofNat 0x2020]
def glyph_database : String := String.mk [Char.ofNat 0xF3, Char.ofNat 0xB0, Char.ofNat 0x2020, Char.ofNat 0xBC]
def glyph_xml : String := String.mk [Char.ofNat 0xF3, Char.ofNat 0xB0, Char.ofNat 0x2014, Char.ofNat 0x20AC]
def glyph_logfile : String := String.mk [Char.ofNat 0xF3, Char.ofNat 0xB0, Char.ofNat 0x152, Char.ofNat 0xB1]
def glyph_lockfile : String := String.mk [Char.ofNat 0xF3, Char.ofNat 0xB0, Char.ofNat 0x152, Char.ofNat 0xBE]
def glyph_dockerfile : String := String.mk [Char.ofNat 0xF0, Char.ofNat 0x178, Char.ofNat 0xB3]
def glyph_vuejs : String := String.mk [Char.ofNat 0xF3, Char.ofNat 0xB0, Char.ofNat 0xA1, Char.ofNat 0x201E]
def glyph_react : String := String.mk [Char.ofNat 0xF3, Char.ofNat 0xB0, Char.ofNat 0x153, Char.ofNat 0x2C6]
def glyph_git : String := String.mk [Char.ofNat 0xF3, Char.ofNat 0xB0, Char.ofNat 0x160, Char.ofNat 0xA2]
def glyph_nodejs : String := String.mk [Char.ofNat 0xF3, Char.ofNat 0xB0, Char.ofNat 0x17D, Char.ofNat 0x2122]
def glyph_npm : String := String.mk [Char.ofNat 0xF3, Char.ofNat 0xB0, Char.ofNat 0x17D, Char.ofNat 0x2122]
def glyph_yarn : String := String.mk [Char.ofNat 0xF3, Char.ofNat 0xB0, Char.ofNat 0xAC, Char.ofNat 0xB7]
def glyph_docker : String := String.mk [Char.ofNat 0xF0, Char.ofNat 0x178, Char.ofNat 0xB3]
/-- Glyph for hidden names with no recognized extension. -/
def glyph_hidden : String := String.mk [Char.ofNat 0xF3, Char.ofNat 0xB0, Char.ofNat 0x2DC, Char.ofNat 0x201C]
/-- Generic file glyph fallback. -/
def glyph_generic : String := String.mk [Char.ofNat 0xF0, Char.ofNat 0x178, Char.ofNat 0x201C, Char.ofNat 0x201E]

/-- The fixed extension-to-glyph table of get_file_icon, in source arm order. -/
def icon_table : List (String × String) := [
  ("rs", glyph_rust),
  ("py", glyph_python),
  ("js", glyph_javascript),
  ("ts", glyph_typescript),
  ("html", glyph_html5),
  ("htm", glyph_html5),
  ("css", glyph_css3),
  ("json", glyph_json),
  ("md", glyph_markdown),
  ("markdown", glyph_markdown),
  ("txt", glyph_text),
  ("pdf", glyph_pdf),
  ("zip", glyph_archive),
  ("tar", glyph_archive),
  ("gz", glyph_archive),
  ("rar", glyph_archive),
  ("jpg", glyph_image),
  ("jpeg", glyph_image),
  ("png", glyph_image),
  ("gif", glyph_image),
  ("bmp", glyph_image),
  ("svg", glyph_image),
  ("mp3", glyph_audio),
  ("wav", glyph_audio),
  ("flac", glyph_audio),
  ("ogg", glyph_audio),
  ("mp4", glyph_video),
  ("mkv", glyph_video),
  ("avi", glyph_video),
  ("mov", glyph_video),
  ("exe", glyph_application),
  ("bin", glyph_application),
  ("toml", glyph_settings),
  ("yaml", glyph_settings),
  ("yml", glyph_settings),
  ("ini", glyph_settings),
  ("conf", glyph_settings),
  ("c", glyph_clang),
  ("h", glyph_clang),
  ("cpp", glyph_cpp),
  ("cc", glyph_cpp),
  ("cxx", glyph_cpp),
  ("hpp", glyph_cpp),
  ("java", glyph_java),
  ("php", glyph_php),
  ("rb", glyph_ruby),
  ("go", glyph_golang),
  ("sh", glyph_terminal),
  ("bash", glyph_terminal),
  ("zsh", glyph_terminal),
  ("sql", glyph_database),
  ("xml", glyph_xml),
  ("log", glyph_logfile),
  ("lock", glyph_lockfile),
  ("dockerfile", glyph_dockerfile),
  ("vue", glyph_vuejs),
  ("react", glyph_react),
  ("jsx", glyph_react),
  ("tsx", glyph_react),
  ("git", glyph_git),
  ("node", glyph_nodejs),
  ("npm", glyph_npm),
  ("yarn", glyph_yarn),
  ("docker", glyph_docker)
]

/-- Rust `Path::extension().unwrap_or("")` for a directory-entry name: the
characters after the last `.`, except that a `.` that begins the name does
not start an extension (hidden files), and a name without `.` has none.
(Directory entries are single non-empty path components, never `.` or
`..`.) -/
def file_extension (filename : String) : String :=
  let r := filename.data.reverse
  let ext := r.takeWhile (fun c => c ≠ '.')
  match r.dropWhile (fun c => c ≠ '.') with
  | [] => ""
  | [_] => ""
  | _ :: _ :: _ => String.mk ext.reverse

/-- The extension dispatch of `get_file_icon`: the source's `match` on the
lower-cased extension, as the equivalent first-match chain of string
equations, followed by the two fallback arms. -/
def icon_for (filename : String) (extension : String) : String :=
  if extension = "rs" then glyph_rust
  else if extension = "py" then glyph_python
  else if extension = "js" then glyph_javascript
  else if extension = "ts" then glyph_typescript
  else if extension = "html" ∨ extension = "htm" then glyph_html5
  else if extension = "css" then glyph_css3
  else if extension = "json" then glyph_json
  else if extension = "md" ∨ extension = "markdown" then glyph_markdown
  else if extension = "txt" then glyph_text
  else if extension = "pdf" then glyph_pdf
  else if extension = "zip" ∨ extension = "tar" ∨ extension = "gz" ∨ extension = "rar" then glyph_archive
  else if extension = "jpg" ∨ extension = "jpeg" ∨ extension = "png" ∨ extension = "gif" ∨ extension = "bmp" ∨ extension = "svg" then glyph_image
  else if extension = "mp3" ∨ extension = "wav" ∨ extension = "flac" ∨ extension = "ogg" then glyph_audio
  else if extension = "mp4" ∨ extension = "mkv" ∨ extension = "avi" ∨ extension = "mov" then glyph_video
  else if extension = "exe" ∨ extension = "bin" then glyph_application
  else if extension = "toml" ∨ extension = "yaml" ∨ extension = "yml" ∨ extension = "ini" ∨ extension = "conf" then glyph_settings
  else if extension = "c" ∨ extension = "h" then glyph_clang
  else if extension = "cpp" ∨ extension = "cc" ∨ extension = "cxx" ∨ extension = "hpp" then glyph_cpp
  else if extension = "java" then glyph_java
  else if extension = "php" then glyph_php
  else if extension = "rb" then glyph_ruby
  else if extension = "go" then glyph_golang
  else if extension = "sh" ∨ extension = "bash" ∨ extension = "zsh" then glyph_terminal
  else if extension = "sql" then glyph_database
  else if extension = "xml" then glyph_xml
  else if extension = "log" then glyph_logfile
  else if extension = "lock" then glyph_lockfile
  else if extension = "dockerfile" then glyph_dockerfile
  else if extension = "vue" then glyph_vuejs
  else if extension = "react" ∨ extension = "jsx" ∨ extension = "tsx" then glyph_react
  else if extension = "git" then glyph_git
  else if extension = "node" then glyph_nodejs
  else if extension = "npm" then glyph_npm
  else if extension = "yarn" then glyph_yarn
  else if extension = "docker" then glyph_docker
  else if starts_with_char filename '.' then glyph_hidden
  else glyph_generic

/-- Rust `get_file_icon`. -/
def get_file_icon (filename : String) (is_dir : Bool) : String :=
  if is_dir then glyph_folder
  else icon_for filename (lower_string (file_extension filename))

/-- Digit-accumulating core of Rust's octal rendering (the `:o` format
specifier with no width or fill): repeatedly divide by 8, pushing the least
significant digit first onto the accumulator.  The first argument is fuel;
any fuel exceeding the value is enough. -/
def to_octal_core : Nat → Nat → List Char → List Char
  | 0, _, acc => acc
  | fuel + 1, n, acc =>
    if n < 8 then Char.ofNat (48 + n % 8) :: acc
    else to_octal_core fuel (n / 8) (Char.ofNat (48 + n % 8) :: acc)

/-- Rust's plain octal rendering of a machine integer: minimal digits, no
padding, `"0"` for zero. -/
def octal_string (n : Nat) : String :=
  String.mk (to_octal_core (n + 1) n [])

/-- Numeric value denoted by a string of octal digits (proof-side, used to
state what the permission string denotes). -/
def octal_value (s : String) : Nat :=
  s.data.foldl (fun a c => a * 8 + (c.toNat - 48)) 0

/-- The slice of `std::fs::Metadata` that the program reads for one entry. -/
structure Metadata where
  mode : Nat
  uid : Nat
  gid : Nat
  modified : Option Int
  is_dir : Bool
deriving DecidableEq

/-- The `struct FileEntry`: the resolved, render-ready record for one entry. -/
structure FileEntry where
  name : String
  permissions : String
  owner : String
  group : String
  modified_text : String
  icon : String
  is_dir : Bool
deriving DecidableEq

/-- Rust `FileEntry::new` on an entry whose metadata read succeeded (a failed
metadata read makes the caller skip the entry; see `list_directory`).
`now` is the current time in seconds since the UNIX epoch. -/
def FileEntry.new (name : String) (meta : Metadata) (cache : NameCache)
    (cfg : Config) (now : Int) : FileEntry where
  name := name
  permissions := octal_string (meta.mode % 512)
  owner := cache.get_user_name meta.uid
  group := cache.get_group_name meta.gid
  modified_text :=
    match meta.modified with
    | some t => format_duration_since t now cfg.use_fuzzy_time
    | none => "unknown"
  icon := get_file_icon name meta.is_dir
  is_dir := meta.is_dir

/-- Rust's right-alignment format (`:>w`): left-pad with spaces to width `w`
(never truncates). -/
def pad_left (w : Nat) (s : String) : String :=
  String.mk (List.replicate (w - s.length) ' ') ++ s

/-- ANSI escape sequences used by the renderer. -/
def esc_yellow : String := "\x1b[33m"
def esc_green : String := "\x1b[32m"
def esc_cyan : String := "\x1b[36m"
def esc_magenta : String := "\x1b[35m"
def esc_blue_bold : String := "\x1b[34;1m"
def esc_reset : String := "\x1b[0m"

/-- Rust `FileEntry::format_columns`: one part per enabled column of
`column_order` (unknown and disabled identifiers produce no part), joined
with a single space. -/
def FileEntry.format_columns (e : FileEntry) (cfg : Config)
    (max_perms_len max_owner_len max_group_len max_modified_len : Nat)
    (name_color reset : String) : String :=
  String.intercalate " " (cfg.column_order.filterMap (fun column =>
    if column = "icon" then
      if cfg.show_icons then some (e.icon ++ "  ") else none
    else if column = "permissions" then
      if cfg.show_permissions then
        some (esc_yellow ++ pad_left max_perms_len e.permissions ++ esc_reset)
      else none
    else if column = "owner" then
      if cfg.show_owner then
        some (esc_green ++ pad_left max_owner_len e.owner ++ esc_reset)
      else none
    else if column = "group" then
      if cfg.show_group then
        some (esc_cyan ++ pad_left max_group_len e.group ++ esc_reset)
      else none
    else if column = "modified" then
      if cfg.show_modified then
        some (esc_magenta ++ pad_left max_modified_len e.modified_text ++ esc_reset)
      else none
    else if column = "name" then some (name_color ++ e.name ++ reset)
    else none))

/-- Rust `FileEntry::format_simple`: same column selection, natural widths. -/
def FileEntry.format_simple (e : FileEntry) (cfg : Config)
    (name_color reset : String) : String :=
  String.intercalate " " (cfg.column_order.filterMap (fun column =>
    if column = "icon" then
      if cfg.show_icons then some e.icon else none
    else if column = "permissions" then
      if cfg.show_permissions then
        some (esc_yellow ++ e.permissions ++ esc_reset)
      else none
    else if column = "owner" then
      if cfg.show_owner then some (esc_green ++ e.owner ++ esc_reset) else none
    else if column = "group" then
      if cfg.show_group then some (esc_cyan ++ e.group ++ esc_reset) else none
    else if column = "modified" then
      if cfg.show_modified then
        some (esc_magenta ++ e.modified_text ++ esc_reset)
      else none
    else if column = "name" then some (name_color ++ e.name ++ reset)
    else none))

/-- Rust `FileEntry::format_display`. -/
def FileEntry.format_display (e : FileEntry) (cfg : Config)
    (max_perms_len max_owner_len max_group_len max_modified_len : Nat) : String :=
  let name_color := if e.is_dir then esc_blue_bold else ""
  let reset := if e.is_dir then esc_reset else ""
  if cfg.column_format then
    e.format_columns cfg max_perms_len max_owner_len max_group_len
      max_modified_len name_color reset
  else e.format_simple cfg name_color reset

/-- Rust `iter().map(len).max().unwrap_or(0)`. -/
def max_len (xs : List String) : Nat :=
  (xs.map String.length).foldr max 0

/-- The column-width computation of `main` (lines 482-499 of the source):
per-column maxima when `column_format` is set, all zero otherwise, and zero
for a column whose toggle is off. -/
def column_widths (cfg : Config) (entries : List FileEntry) :
    Nat × Nat × Nat × Nat :=
  if cfg.column_format then
    ( (if cfg.show_permissions then max_len (entries.map FileEntry.permissions) else 0),
      (if cfg.show_owner then max_len (entries.map FileEntry.owner) else 0),
      (if cfg.show_group then max_len (entries.map FileEntry.group) else 0),
      (if cfg.show_modified then max_len (entries.map FileEntry.modified_text) else 0) )
  else (0, 0, 0, 0)

/-- Lexicographic comparison of character lists: Rust's `str` ordering
(byte-lexicographic; identical to character-lexicographic on the ASCII
strings the program compares). -/
def cmp_chars : List Char → List Char → Ordering
  | [], [] => .eq
  | [], _ :: _ => .lt
  | _ :: _, [] => .gt
  | a :: xs, b :: ys =>
    if a < b then .lt else if b < a then .gt else cmp_chars xs ys

/-- The case-insensitive sort key: `name.to_lowercase()`. -/
def name_key (e : FileEntry) : List Char :=
  (lower_string e.name).data

/-- The comparator passed to `sort_by` in `main`. -/
def cmp_entries (cfg : Config) (a b : FileEntry) : Ordering :=
  if cfg.sort_dirs_first then
    match a.is_dir, b.is_dir with
    | true, false => .lt
    | false, true => .gt
    | _, _ => cmp_chars (name_key a) (name_key b)
  else cmp_chars (name_key a) (name_key b)

/-- Whether `a` may precede `b` in the sorted order: the comparator does not say
`Greater`. -/
def entry_le (cfg : Config) (a b : FileEntry) : Bool :=
  (cmp_entries cfg a b).isLE

/-- Insert `x` in front of the first element that `x` must-or-may precede.
Inserting each element of the input in reverse order yields the stable sort
(ties keep input order because `le x y` holds for ties and `x` comes earlier
in the input than everything already inserted). -/
def stable_insert {α : Type} (le : α → α → Bool) (x : α) : List α → List α
  | [] => [x]
  | y :: ys => if le x y then x :: y :: ys else y :: stable_insert le x ys

/-- Stable sort by a boolean `may-precede` relation; extensional model of
`Vec::sort_by` (Rust's sort is stable, so for a total preorder comparator
its output is exactly the stable sorted permutation). -/
def stable_sort {α : Type} (le : α → α → Bool) : List α → List α
  | [] => []
  | x :: xs => stable_insert le x (stable_sort le xs)

/-- The entry ordering of `main` (lines 460-470 of the source). -/
def sort_entries (cfg : Config) (l : List FileEntry) : List FileEntry :=
  stable_sort (entry_le cfg) l

/-- The output of `main` after the target directory was enumerated: one
string per printed line.  `raw` is the directory snapshot in enumeration
order, pairing each name with its metadata (`none` when the per-entry
metadata read fails, which silently drops the entry).  Hidden names are
skipped before resolution unless `show_hidden`. -/
def list_directory (cfg : Config) (dir_name : String)
    (raw : List (String × Option Metadata)) (cache : NameCache) (now : Int) :
    List String :=
  let file_entries := raw.filterMap (fun e =>
    if ¬ cfg.show_hidden ∧ starts_with_char e.1 '.' then none
    else
      match e.2 with
      | some meta => some (FileEntry.new e.1 meta cache cfg now)
      | none => none)
  let sorted := sort_entries cfg file_entries
  if sorted.isEmpty then [" Empty directory"]
  else
    let widths := column_widths cfg sorted
    (" " ++ dir_name ++ " (" ++ Nat.repr sorted.length ++ " items)") :: "" ::
      sorted.map (fun e =>
        e.format_display cfg widths.1 widths.2.1 widths.2.2.1 widths.2.2.2)

/-- Specification-side: the column identifiers that produce a part under a
configuration — the fixed vocabulary minus disabled toggles (`name` has no
toggle).  Everything else is skipped by the renderer. -/
def emitted_column (cfg : Config) (c : String) : Bool :=
  (c == "icon" && cfg.show_icons) || (c == "permissions" && cfg.show_permissions) ||
  (c == "owner" && cfg.show_owner) || (c == "group" && cfg.show_group) ||
  (c == "modified" && cfg.show_modified) || (c == "name")

/-- Specification-side: singular wording exactly when the unit count is 1. -/
def unit_phrase (count : Nat) (singular : String) : String :=
  if count = 1 then "1 " ++ singular
  else Nat.repr count ++ " " ++ singular ++ "s"

/-- Specification-side: the fuzzy bucket table exactly as the specification
tabulates it (inclusive second ranges, fixed divisors). -/
def fuzzy_bucket_spec (s : Nat) : String :=
  if s = 0 then "now"
  else if s ≤ 59 then unit_phrase s "second"
  else if s ≤ 3599 then unit_phrase (s / 60) "minute"
  else if s ≤ 86399 then unit_phrase (s / 3600) "hour"
  else if s ≤ 604799 then unit_phrase (s / 86400) "day"
  else if s ≤ 2629743 then unit_phrase (s / 604800) "week"
  else if s ≤ 31556925 then unit_phrase (s / 2629744) "month"
  else unit_phrase (s / 31556926) "year"

/-! ## Helper lemmas: octal rendering -/

/-- The glyphs `Char.ofNat` produces for octal digit code points. -/
theorem char_toNat_digit (n : Nat) (h : n < 8) :
    (Char.ofNat (48 + n)).toNat = 48 + n := by
  interval_cases n <;> decide

/-- A digit character of a nonzero leading octal digit is not `'0'`. -/
theorem char_digit_ne_zero (n : Nat) (h : n < 8) (h0 : n ≠ 0) :
    Char.ofNat (48 + n) ≠ '0' := by
  interval_cases n <;> simp_all

/-- Folding the octal valuation over the produced digits recovers the
value. -/
theorem to_octal_core_foldl (fuel : Nat) :
    ∀ (n : Nat) (acc : List Char), n < fuel →
      (to_octal_core fuel n acc).foldl (fun a c => a * 8 + (c.toNat - 48)) 0
        = acc.foldl (fun a c => a * 8 + (c.toNat - 48)) n := by
  induction fuel with
  | zero => intro n acc h; exact absurd h (Nat.not_lt_zero n)
  | succ fuel ih =>
    intro n acc h
    have hval : (Char.ofNat (48 + n % 8)).toNat = 48 + n % 8 :=
      char_toNat_digit _ (Nat.mod_lt _ (by norm_num))
    unfold to_octal_core
    by_cases h8 : n < 8
    · rw [if_pos h8, List.foldl_cons, hval]
      have hn : 0 * 8 + (48 + n % 8 - 48) = n := by omega
      rw [hn]
    · rw [if_neg h8, ih (n / 8) _ (by omega), List.foldl_cons, hval]
      have hn : n / 8 * 8 + (48 + n % 8 - 48) = n := by omega
      rw [hn]

/-- The leading produced digit of a nonzero value is not `'0'`. -/
theorem to_octal_core_head (fuel : Nat) :
    ∀ (n : Nat) (acc : List Char), n < fuel → n ≠ 0 →
      ∀ c, (to_octal_core fuel n acc).head? = some c → c ≠ '0' := by
  induction fuel with
  | zero => intro n acc h; exact absurd h (Nat.not_lt_zero n)
  | succ fuel ih =>
    intro n acc h h0 c hc
    unfold to_octal_core at hc
    by_cases h8 : n < 8
    · rw [if_pos h8] at hc
      simp only [List.head?_cons, Option.some.injEq] at hc
      subst hc
      have : n % 8 = n := Nat.mod_eq_of_lt h8
      rw [this]
      exact char_digit_ne_zero n h8 h0
    · rw [if_neg h8] at hc
      exact ih (n / 8) _ (by omega) (by omega) c hc

/-- At least one digit is produced. -/
theorem to_octal_core_length_ge (fuel : Nat) :
    ∀ (n : Nat) (acc : List Char), n < fuel →
      acc.length + 1 ≤ (to_octal_core fuel n acc).length := by
  induction fuel with
  | zero => intro n acc h; exact absurd h (Nat.not_lt_zero n)
  | succ fuel ih =>
    intro n acc h
    unfold to_octal_core
    by_cases h8 : n < 8
    · rw [if_pos h8]; simp
    · rw [if_neg h8]
      have := ih (n / 8) (Char.ofNat (48 + n % 8) :: acc) (by omega)
      simp only [List.length_cons] at this
      omega

/-- At most `k` digits are produced for values below `8 ^ k`. -/
theorem to_octal_core_length_le (fuel : Nat) :
    ∀ (n : Nat) (acc : List Char) (k : Nat), n < fuel → 1 ≤ k → n < 8 ^ k →
      (to_octal_core fuel n acc).length ≤ acc.length + k := by
  induction fuel with
  | zero => intro n acc k h; exact absurd h (Nat.not_lt_zero n)
  | succ fuel ih =>
    intro n acc k h hk hpow
    unfold to_octal_core
    by_cases h8 : n < 8
    · rw [if_pos h8]; simp; omega
    · rw [if_neg h8]
      obtain ⟨k', rfl⟩ : ∃ k', k = k' + 1 := ⟨k - 1, by omega⟩
      have hk' : 1 ≤ k' := by
        by_contra hc
        have : k' = 0 := by omega
        subst this
        simp [pow_succ] at hpow
        omega
      have hdiv : n / 8 < 8 ^ k' := by
        rw [Nat.div_lt_iff_lt_mul (by norm_num)]
        calc n < 8 ^ (k' + 1) := hpow
        _ = 8 ^ k' * 8 := by rw [pow_succ]
      have := ih (n / 8) (Char.ofNat (48 + n % 8) :: acc) k' (by omega) hk' hdiv
      simp only [List.length_cons] at this
      omega

/-! ## C1 -/

/-- C1 counterexample: the claim says the permission string is the mode's
low 9 bits rendered as a zero-padded 3-digit octal string, so mode `0o007`
would render as `"007"`; the program renders it as `"7"`. -/
theorem permissions_not_zero_padded_cex :
    (FileEntry.new "f" ⟨7, 0, 0, none, false⟩ ⟨[], []⟩ default_config 0).permissions = "7"
      ∧ ("7" : String) ≠ "007" := by
  constructor
  · decide
  · decide

/-- C1 amended: for every resolved entry, the permissions field is the
entry's mode masked to the low 9 bits rendered as a plain (minimal-width,
unpadded) octal string: its octal valuation is exactly `mode % 512`, it has
between 1 and 3 digits, and it has no leading zero unless the masked mode
is zero itself. -/
theorem permissions_unpadded_octal (name : String) (meta : Metadata)
    (cache : NameCache) (cfg : Config) (now : Int) :
    (FileEntry.new name meta cache cfg now).permissions = octal_string (meta.mode % 512)
  ∧ octal_value (FileEntry.new name meta cache cfg now).permissions = meta.mode % 512
  ∧ 1 ≤ (FileEntry.new name meta cache cfg now).permissions.length
  ∧ (FileEntry.new name meta cache cfg now).permissions.length ≤ 3
  ∧ (meta.mode % 512 ≠ 0 →
      ∀ c, (FileEntry.new name meta cache cfg now).permissions.data.head? = some c →
        c ≠ '0') := by
  have hm : meta.mode % 512 < 512 := Nat.mod_lt _ (by norm_num)
  refine ⟨rfl, ?_, ?_, ?_, ?_⟩
  · show octal_value (octal_string (meta.mode % 512)) = meta.mode % 512
    unfold octal_value octal_string
    simpa using to_octal_core_foldl (meta.mode % 512 + 1) (meta.mode % 512) [] (by omega)
  · show 1 ≤ (octal_string (meta.mode % 512)).length
    unfold octal_string
    rw [String.length_mk]
    simpa using to_octal_core_length_ge (meta.mode % 512 + 1) (meta.mode % 512) [] (by omega)
  · show (octal_string (meta.mode % 512)).length ≤ 3
    unfold octal_string
    rw [String.length_mk]
    have h8 : (8 : Nat) ^ 3 = 512 := by norm_num
    simpa using to_octal_core_length_le (meta.mode % 512 + 1) (meta.mode % 512) [] 3
      (by omega) (by norm_num) (by omega)
  · intro h0 c hc
    exact to_octal_core_head (meta.mode % 512 + 1) (meta.mode % 512) [] (by omega) h0 c hc

/-- C1 amended, witness at mode `0o644` (= 420): the octal valuation of the
rendered permissions is the masked mode, and the leading digit is not 0. -/
theorem permissions_unpadded_octal_witness :
    octal_value (FileEntry.new "f" ⟨420, 0, 0, none, false⟩ ⟨[], []⟩ default_config 0).permissions
        = 420 % 512
      ∧ ('6' : Char) ≠ '0' := by
  refine ⟨(permissions_unpadded_octal "f" ⟨420, 0, 0, none, false⟩ ⟨[], []⟩ default_config 0).2.1, ?_⟩
  exact (permissions_unpadded_octal "f" ⟨420, 0, 0, none, false⟩ ⟨[], []⟩
    default_config 0).2.2.2.2 (by decide) '6' (by decide)

/-! ## C7 -/

/-- C7: `parse_bool` is a total, case-insensitive function into the two
booleans: it depends on the input only through its lower-casing, every case
variant of a true-spelling maps to `true`, every case variant of a
false-spelling maps to `false`, and everything else maps to `false`. -/
theorem parse_bool_total_case_insensitive (s t : String) :
    (lower_string s = lower_string t → parse_bool s = parse_bool t)
  ∧ (lower_string s = "true" ∨ lower_string s = "yes" ∨ lower_string s = "1" ∨
      lower_string s = "on" ∨ lower_string s = "enabled" → parse_bool s = true)
  ∧ (lower_string s = "false" ∨ lower_string s = "no" ∨ lower_string s = "0" ∨
      lower_string s = "off" ∨ lower_string s = "disabled" → parse_bool s = false)
  ∧ (lower_string s ∉ ["true", "yes", "1", "on", "enabled"] → parse_bool s = false) := by
  refine ⟨?_, ?_, ?_, ?_⟩
  · intro h
    unfold parse_bool
    rw [h]
  · intro h
    rcases h with h | h | h | h | h <;> (unfold parse_bool; rw [h]) <;> decide
  · intro h
    rcases h with h | h | h | h | h <;> (unfold parse_bool; rw [h]) <;> decide
  · intro h
    unfold parse_bool
    split <;> simp_all

/-- C7 witness: concrete spellings. -/
theorem parse_bool_total_case_insensitive_witness :
    parse_bool "TRUE" = true ∧ parse_bool "oFF" = false ∧ parse_bool "nope" = false := by
  refine ⟨?_, ?_, ?_⟩
  · exact (parse_bool_total_case_insensitive "TRUE" "TRUE").2.1 (Or.inl (by decide))
  · exact (parse_bool_total_case_insensitive "oFF" "oFF").2.2.1
      (Or.inr (Or.inr (Or.inr (Or.inl (by decide)))))
  · exact (parse_bool_total_case_insensitive "nope" "nope").2.2.2 (by decide)

/-! ## C8 -/

/-- C8: name-cache lookups are total and non-mutating (they are pure
functions of the cache): an id present in the backing table resolves to its
cached name, and an id absent from the table resolves to its decimal string
representation — never an error. -/
theorem name_cache_lookup_total (cache : NameCache) (uid gid : Nat) :
    (cache.users.lookup uid = none → cache.get_user_name uid = Nat.repr uid)
  ∧ (∀ name, cache.users.lookup uid = some name → cache.get_user_name uid = name)
  ∧ (cache.groups.lookup gid = none → cache.get_group_name gid = Nat.repr gid)
  ∧ (∀ name, cache.groups.lookup gid = some name → cache.get_group_name gid = name) := by
  refine ⟨?_, ?_, ?_, ?_⟩
  · intro h; unfold NameCache.get_user_name; rw [h]
  · intro name h; unfold NameCache.get_user_name; rw [h]
  · intro h; unfold NameCache.get_group_name; rw [h]
  · intro name h; unfold NameCache.get_group_name; rw [h]

/-- C8 witness: a hit and a miss on a concrete cache. -/
theorem name_cache_lookup_total_witness :
    NameCache.get_user_name ⟨[(0, "root")], [(0, "wheel")]⟩ 5 = Nat.repr 5
      ∧ NameCache.get_user_name ⟨[(0, "root")], [(0, "wheel")]⟩ 0 = "root" := by
  constructor
  · exact (name_cache_lookup_total ⟨[(0, "root")], [(0, "wheel")]⟩ 5 0).1 (by decide)
  · exact (name_cache_lookup_total ⟨[(0, "root")], [(0, "wheel")]⟩ 0 0).2.1 "root" (by decide)

/-! ## C6 -/

/-- C6: with fuzzy time disabled, `format_duration_since` is independent of
the current time and renders an epoch-relative quantity: the seconds between
the UNIX epoch and the modification timestamp, decomposed into days since
the epoch modulo 365, the hour of the day, and the minute of the hour, as
`"Dd Hh:Mm"`. -/
theorem nonfuzzy_epoch_relative (modified now now2 : Int) (s : Nat)
    (h : modified = (s : Int)) :
    format_duration_since modified now false = format_duration_since modified now2 false
  ∧ format_duration_since modified now false =
      Nat.repr (s / 86400 % 365) ++ "d " ++ Nat.repr (s / 3600 % 24) ++ "h:" ++
        Nat.repr (s / 60 % 60) ++ "m" := by
  subst h
  refine ⟨rfl, ?_⟩
  unfold format_duration_since
  rw [if_pos rfl, if_pos (Int.natCast_nonneg s)]
  have hB : s % 86400 / 3600 = s / 3600 % 24 := by
    have := Nat.mod_mul_right_div_self s 3600 24
    simpa using this
  have hC : s % 3600 / 60 = s / 60 % 60 := by
    have := Nat.mod_mul_right_div_self s 60 60
    simpa using this
  simp only [Int.toNat_natCast, hB, hC]

/-- C6 witness: at 1970-01-02 01:01:01 UTC (epoch + 90061 s) the rendered
text is `"1d 1h:1m"` whatever the current time is. -/
theorem nonfuzzy_epoch_relative_witness :
    format_duration_since 90061 12345 false = "1d 1h:1m" := by
  have h := (nonfuzzy_epoch_relative 90061 12345 0 90061 (by norm_num)).2
  rw [h]
  decide

/-! ## C2 -/

/-- Splitting appends so the literal pieces of a phrase can be folded. -/
theorem str_append_group (a u v w : String) :
    a ++ u ++ v ++ w = a ++ (u ++ v ++ w) := by
  simp [String.append_assoc]

/-- The program's fuzzy bucketing agrees with the specification's bucket
table on every elapsed-second count. -/
theorem fuzzy_text_eq_bucket_spec (s : Nat) : fuzzy_text s = fuzzy_bucket_spec s := by
  simp only [fuzzy_text, fuzzy_bucket_spec, unit_phrase]
  split_ifs <;>
    first
      | rfl
      | omega
      | decide
      | (rw [str_append_group]; congr 1)

/-- C2: with fuzzy mode enabled, `format_duration_since` is a pure function
of the elapsed seconds `now - modified`: any negative elapsed time yields
exactly `"future"`, and any elapsed count of `s` seconds renders the
specification's bucket table at `s` (whose buckets have inclusive edges and
use singular wording exactly when the computed unit count is 1). -/
theorem fuzzy_pure_bucketed (modified now : Int) :
    (now - modified < 0 → format_duration_since modified now true = "future")
  ∧ (∀ m n : Int, n - m = now - modified →
      format_duration_since m n true = format_duration_since modified now true)
  ∧ (∀ s : Nat, now - modified = (s : Int) →
      format_duration_since modified now true = fuzzy_bucket_spec s) := by
  refine ⟨?_, ?_, ?_⟩
  · intro h
    unfold format_duration_since
    rw [if_neg (by decide), if_pos (show now < modified by omega)]
  · intro m n h
    unfold format_duration_since
    simp only [if_neg (show ¬ (true = false) by decide)]
    by_cases hc : now < modified
    · rw [if_pos (show n < m by omega)]
      rw [if_pos hc]
    · rw [if_neg (show ¬ n < m by omega), if_neg hc]
      congr 2
  · intro s h
    unfold format_duration_since
    rw [if_neg (by decide), if_neg (show ¬ now < modified by omega), h,
      Int.toNat_natCast]
    exact fuzzy_text_eq_bucket_spec s

/-- C2 witness: the inclusive bucket edges of the claim, plus a future
timestamp, obtained from the theorem at concrete times. -/
theorem fuzzy_pure_bucketed_witness :
    format_duration_since 5 2 true = "future"
  ∧ format_duration_since 0 59 true = fuzzy_bucket_spec 59
  ∧ format_duration_since 0 60 true = fuzzy_bucket_spec 60
  ∧ format_duration_since 0 3599 true = fuzzy_bucket_spec 3599
  ∧ format_duration_since 0 3600 true = fuzzy_bucket_spec 3600
  ∧ fuzzy_bucket_spec 59 = "59 seconds" ∧ fuzzy_bucket_spec 60 = "1 minute"
  ∧ fuzzy_bucket_spec 3599 = "59 minutes" ∧ fuzzy_bucket_spec 3600 = "1 hour" := by
  refine ⟨(fuzzy_pure_bucketed 5 2).1 (by decide),
    (fuzzy_pure_bucketed 0 59).2.2 59 (by decide),
    (fuzzy_pure_bucketed 0 60).2.2 60 (by decide),
    (fuzzy_pure_bucketed 0 3599).2.2 3599 (by decide),
    (fuzzy_pure_bucketed 0 3600).2.2 3600 (by decide),
    by decide, by decide, by decide, by decide⟩

/-! ## C3 -/

/-- Dropping elements on which the part function returns `none` does not
change a `filterMap`. -/
theorem filterMap_filter_congr {α β : Type} (p : α → Bool) (f : α → Option β)
    (h : ∀ a, p a = false → f a = none) :
    ∀ l : List α, (l.filter p).filterMap f = l.filterMap f := by
  intro l
  induction l with
  | nil => rfl
  | cons a l ih =>
    by_cases hp : p a = true
    · rw [List.filter_cons_of_pos hp]
      cases hfa : f a with
      | none => rw [List.filterMap_cons_none hfa, List.filterMap_cons_none hfa, ih]
      | some b => rw [List.filterMap_cons_some hfa, List.filterMap_cons_some hfa, ih]
    · have hp' : p a = false := by simpa using hp
      rw [List.filter_cons_of_neg (by simp [hp']), List.filterMap_cons_none (h a hp'), ih]

/-- C3: column identifiers outside the vocabulary, and identifiers whose
toggle is disabled, are accepted when the configuration is loaded and are
skipped at render time: deleting them from `column_order` leaves every
rendered line unchanged (they emit no text and no join separator), in both
the aligned and the simple layout. -/
theorem unknown_disabled_columns_skipped (cfg : Config) (e : FileEntry)
    (wp wo wg wm : Nat) (name_color reset : String) :
    e.format_columns { cfg with column_order := cfg.column_order.filter (emitted_column cfg) }
        wp wo wg wm name_color reset
      = e.format_columns cfg wp wo wg wm name_color reset
  ∧ e.format_simple { cfg with column_order := cfg.column_order.filter (emitted_column cfg) }
        name_color reset
      = e.format_simple cfg name_color reset
  ∧ (parse_config default_config "column_order=name,bogus,permissions").column_order
      = ["name", "bogus", "permissions"] := by
  obtain ⟨i, p, o, g, m, ft, cf, co, sd, sh, lf⟩ := cfg
  refine ⟨?_, ?_, by decide⟩
  · unfold FileEntry.format_columns
    congr 1
    apply filterMap_filter_congr
    intro a ha
    simp only [emitted_column] at ha
    split_ifs <;> simp_all
  · unfold FileEntry.format_simple
    congr 1
    apply filterMap_filter_congr
    intro a ha
    simp only [emitted_column] at ha
    split_ifs <;> simp_all

/-! ## C5 helpers -/

/-- Every member's length is bounded by the column maximum. -/
theorem length_le_max_len (xs : List String) (s : String) (h : s ∈ xs) :
    s.length ≤ max_len xs := by
  induction xs with
  | nil => cases h
  | cons x xs ih =>
    unfold max_len
    simp only [List.map_cons, List.foldr_cons]
    rcases List.mem_cons.mp h with rfl | hmem
    · exact le_max_left _ _
    · exact le_trans (ih hmem) (le_max_right _ _)

/-- Padding to a width at least the natural length hits the width
exactly. -/
theorem pad_left_length (w : Nat) (s : String) (h : s.length ≤ w) :
    (pad_left w s).length = w := by
  unfold pad_left
  rw [String.length_append, String.length_mk, List.length_replicate]
  omega

/-- Padding a column member to the column maximum yields the maximum. -/
theorem pad_to_max_len (xs : List String) (s : String) (h : s ∈ xs) :
    (pad_left (max_len xs) s).length = max_len xs :=
  pad_left_length _ _ (length_le_max_len xs s h)

/-! ## C5 -/

/-- C5: with `column_format` on, each of the permissions/owner/group/modified
columns is right-padded to a common width, which is exactly the maximum
length of that column's value over all entries when the column's toggle is
on and exactly 0 when it is off; with `column_format` off no width is
computed (all four are 0) and rendering delegates to the natural-width simple
layout. -/
theorem column_alignment_widths (cfg : Config) (entries : List FileEntry) :
    (cfg.column_format = true →
        (cfg.show_permissions = true →
            (column_widths cfg entries).1 = max_len (entries.map FileEntry.permissions)
          ∧ ∀ e ∈ entries,
              (pad_left (column_widths cfg entries).1 e.permissions).length
                = (column_widths cfg entries).1)
      ∧ (cfg.show_permissions = false → (column_widths cfg entries).1 = 0)
      ∧ (cfg.show_owner = true →
            (column_widths cfg entries).2.1 = max_len (entries.map FileEntry.owner)
          ∧ ∀ e ∈ entries,
              (pad_left (column_widths cfg entries).2.1 e.owner).length
                = (column_widths cfg entries).2.1)
      ∧ (cfg.show_owner = false → (column_widths cfg entries).2.1 = 0)
      ∧ (cfg.show_group = true →
            (column_widths cfg entries).2.2.1 = max_len (entries.map FileEntry.group)
          ∧ ∀ e ∈ entries,
              (pad_left (column_widths cfg entries).2.2.1 e.group).length
                = (column_widths cfg entries).2.2.1)
      ∧ (cfg.show_group = false → (column_widths cfg entries).2.2.1 = 0)
      ∧ (cfg.show_modified = true →
            (column_widths cfg entries).2.2.2 = max_len (entries.map FileEntry.modified_text)
          ∧ ∀ e ∈ entries,
              (pad_left (column_widths cfg entries).2.2.2 e.modified_text).length
                = (column_widths cfg entries).2.2.2)
      ∧ (cfg.show_modified = false → (column_widths cfg entries).2.2.2 = 0))
  ∧ (cfg.column_format = false →
        column_widths cfg entries = (0, 0, 0, 0)
      ∧ ∀ (e : FileEntry) (wp wo wg wm : Nat),
          e.format_display cfg wp wo wg wm
            = e.format_simple cfg (if e.is_dir then esc_blue_bold else "")
                (if e.is_dir then esc_reset else "")) := by
  constructor
  · intro hcf
    have hw : column_widths cfg entries =
        ( (if cfg.show_permissions then max_len (entries.map FileEntry.permissions) else 0),
          (if cfg.show_owner then max_len (entries.map FileEntry.owner) else 0),
          (if cfg.show_group then max_len (entries.map FileEntry.group) else 0),
          (if cfg.show_modified then max_len (entries.map FileEntry.modified_text) else 0) ) := by
      unfold column_widths
      rw [if_pos hcf]
    refine ⟨?_, ?_, ?_, ?_, ?_, ?_, ?_, ?_⟩
    · intro hp
      rw [hw]
      simp only [if_pos hp]
      exact ⟨trivial, fun e he => pad_to_max_len _ _ (List.mem_map_of_mem _ he)⟩
    · intro hp
      rw [hw]
      simp [hp]
    · intro hp
      rw [hw]
      simp only [if_pos hp]
      exact ⟨trivial, fun e he => pad_to_max_len _ _ (List.mem_map_of_mem _ he)⟩
    · intro hp
      rw [hw]
      simp [hp]
    · intro hp
      rw [hw]
      simp only [if_pos hp]
      exact ⟨trivial, fun e he => pad_to_max_len _ _ (List.mem_map_of_mem _ he)⟩
    · intro hp
      rw [hw]
      simp [hp]
    · intro hp
      rw [hw]
      simp only [if_pos hp]
      exact ⟨trivial, fun e he => pad_to_max_len _ _ (List.mem_map_of_mem _ he)⟩
    · intro hp
      rw [hw]
      simp [hp]
  · intro hcf
    constructor
    · unfold column_widths
      rw [if_neg (by simp [hcf])]
    · intro e wp wo wg wm
      unfold FileEntry.format_display
      rw [if_neg (by simp [hcf])]

/-- C5 witness: widths and padding at a concrete two-entry collection under
the default configuration. -/
theorem column_alignment_widths_witness :
    (column_widths default_config
        [⟨"a", "644", "root", "wheel", "now", "i", false⟩,
         ⟨"b", "7", "tu", "g", "1 hour", "i", false⟩]).1
      = max_len ([⟨"a", "644", "root", "wheel", "now", "i", false⟩,
          ⟨"b", "7", "tu", "g", "1 hour", "i", false⟩].map FileEntry.permissions)
  ∧ (pad_left (column_widths default_config
        [⟨"a", "644", "root", "wheel", "now", "i", false⟩,
         ⟨"b", "7", "tu", "g", "1 hour", "i", false⟩]).1
        (FileEntry.permissions ⟨"b", "7", "tu", "g", "1 hour", "i", false⟩)).length
      = (column_widths default_config
        [⟨"a", "644", "root", "wheel", "now", "i", false⟩,
         ⟨"b", "7", "tu", "g", "1 hour", "i", false⟩]).1 := by
  constructor
  · exact (((column_alignment_widths default_config
      [⟨"a", "644", "root", "wheel", "now", "i", false⟩,
       ⟨"b", "7", "tu", "g", "1 hour", "i", false⟩]).1 rfl).1 rfl).1
  · exact (((column_alignment_widths default_config
      [⟨"a", "644", "root", "wheel", "now", "i", false⟩,
       ⟨"b", "7", "tu", "g", "1 hour", "i", false⟩]).1 rfl).1 rfl).2
      ⟨"b", "7", "tu", "g", "1 hour", "i", false⟩ (by simp)

/-! ## C9 -/

/-- A successful association-list lookup locates its pair in the list. -/
theorem lookup_some_mem {b : Type} (k : String) (v : b) :
    ∀ (l : List (String × b)), l.lookup k = some v → (k, v) ∈ l := by
  intro l
  induction l with
  | nil => intro h; simp [List.lookup] at h
  | cons p t ih =>
    intro h
    obtain ⟨a, c⟩ := p
    cases hab : (k == a) with
    | true =>
      simp only [List.lookup, hab] at h
      obtain rfl : k = a := eq_of_beq hab
      simp only [Option.some.injEq] at h
      subst h
      exact List.mem_cons_self _ _
    | false =>
      simp only [List.lookup, hab] at h
      exact List.mem_cons_of_mem _ (ih h)

/-- The extension dispatch chain of `get_file_icon` is exactly first-match
lookup in the static `icon_table`, with the hidden/generic fallback on a
missed lookup. -/
theorem icon_for_eq_lookup (nm k : String) :
    icon_for nm k =
      match icon_table.lookup k with
      | some g => g
      | none => if starts_with_char nm '.' then glyph_hidden else glyph_generic := by
  by_cases h1 : k = "rs"
  · subst h1
    rfl
  by_cases h2 : k = "py"
  · subst h2
    rfl
  by_cases h3 : k = "js"
  · subst h3
    rfl
  by_cases h4 : k = "ts"
  · subst h4
    rfl
  by_cases h5 : k = "html"
  · subst h5
    rfl
  by_cases h6 : k = "htm"
  · subst h6
    rfl
  by_cases h7 : k = "css"
  · subst h7
    rfl
  by_cases h8 : k = "json"
  · subst h8
    rfl
  by_cases h9 : k = "md"
  · subst h9
    rfl
  by_cases h10 : k = "markdown"
  · subst h10
    rfl
  by_cases h11 : k = "txt"
  · subst h11
    rfl
  by_cases h12 : k = "pdf"
  · subst h12
    rfl
  by_cases h13 : k = "zip"
  · subst h13
    rfl
  by_cases h14 : k = "tar"
  · subst h14
    rfl
  by_cases h15 : k = "gz"
  · subst h15
    rfl
  by_cases h16 : k = "rar"
  · subst h16
    rfl
  by_cases h17 : k = "jpg"
  · subst h17
    rfl
  by_cases h18 : k = "jpeg"
  · subst h18
    rfl
  by_cases h19 : k = "png"
  · subst h19
    rfl
  by_cases h20 : k = "gif"
  · subst h20
    rfl
  by_cases h21 : k = "bmp"
  · subst h21
    rfl
  by_cases h22 : k = "svg"
  · subst h22
    rfl
  by_cases h23 : k = "mp3"
  · subst h23
    rfl
  by_cases h24 : k = "wav"
  · subst h24
    rfl
  by_cases h25 : k = "flac"
  · subst h25
    rfl
  by_cases h26 : k = "ogg"
  · subst h26
    rfl
  by_cases h27 : k = "mp4"
  · subst h27
    rfl
  by_cases h28 : k = "mkv"
  · subst h28
    rfl
  by_cases h29 : k = "avi"
  · subst h29
    rfl
  by_cases h30 : k = "mov"
  · subst h30
    rfl
  by_cases h31 : k = "exe"
  · subst h31
    rfl
  by_cases h32 : k = "bin"
  · subst h32
    rfl
  by_cases h33 : k = "toml"
  · subst h33
    rfl
  by_cases h34 : k = "yaml"
  · subst h34
    rfl
  by_cases h35 : k = "yml"
  · subst h35
    rfl
  by_cases h36 : k = "ini"
  · subst h36
    rfl
  by_cases h37 : k = "conf"
  · subst h37
    rfl
  by_cases h38 : k = "c"
  · subst h38
    rfl
  by_cases h39 : k = "h"
  · subst h39
    rfl
  by_cases h40 : k = "cpp"
  · subst h40
    rfl
  by_cases h41 : k = "cc"
  · subst h41
    rfl
  by_cases h42 : k = "cxx"
  · subst h42
    rfl
  by_cases h43 : k = "hpp"
  · subst h43
    rfl
  by_cases h44 : k = "java"
  · subst h44
    rfl
  by_cases h45 : k = "php"
  · subst h45
    rfl
  by_cases h46 : k = "rb"
  · subst h46
    rfl
  by_cases h47 : k = "go"
  · subst h47
    rfl
  by_cases h48 : k = "sh"
  · subst h48
    rfl
  by_cases h49 : k = "bash"
  · subst h49
    rfl
  by_cases h50 : k = "zsh"
  · subst h50
    rfl
  by_cases h51 : k = "sql"
  · subst h51
    rfl
  by_cases h52 : k = "xml"
  · subst h52
    rfl
  by_cases h53 : k = "log"
  · subst h53
    rfl
  by_cases h54 : k = "lock"
  · subst h54
    rfl
  by_cases h55 : k = "dockerfile"
  · subst h55
    rfl
  by_cases h56 : k = "vue"
  · subst h56
    rfl
  by_cases h57 : k = "react"
  · subst h57
    rfl
  by_cases h58 : k = "jsx"
  · subst h58
    rfl
  by_cases h59 : k = "tsx"
  · subst h59
    rfl
  by_cases h60 : k = "git"
  · subst h60
    rfl
  by_cases h61 : k = "node"
  · subst h61
    rfl
  by_cases h62 : k = "npm"
  · subst h62
    rfl
  by_cases h63 : k = "yarn"
  · subst h63
    rfl
  by_cases h64 : k = "docker"
  · subst h64
    rfl
  have b1 : (k == "rs") = false := by simp [h1]
  have b2 : (k == "py") = false := by simp [h2]
  have b3 : (k == "js") = false := by simp [h3]
  have b4 : (k == "ts") = false := by simp [h4]
  have b5 : (k == "html") = false := by simp [h5]
  have b6 : (k == "htm") = false := by simp [h6]
  have b7 : (k == "css") = false := by simp [h7]
  have b8 : (k == "json") = false := by simp [h8]
  have b9 : (k == "md") = false := by simp [h9]
  have b10 : (k == "markdown") = false := by simp [h10]
  have b11 : (k == "txt") = false := by simp [h11]
  have b12 : (k == "pdf") = false := by simp [h12]
  have b13 : (k == "zip") = false := by simp [h13]
  have b14 : (k == "tar") = false := by simp [h14]
  have b15 : (k == "gz") = false := by simp [h15]
  have b16 : (k == "rar") = false := by simp [h16]
  have b17 : (k == "jpg") = false := by simp [h17]
  have b18 : (k == "jpeg") = false := by simp [h18]
  have b19 : (k == "png") = false := by simp [h19]
  have b20 : (k == "gif") = false := by simp [h20]
  have b21 : (k == "bmp") = false := by simp [h21]
  have b22 : (k == "svg") = false := by simp [h22]
  have b23 : (k == "mp3") = false := by simp [h23]
  have b24 : (k == "wav") = false := by simp [h24]
  have b25 : (k == "flac") = false := by simp [h25]
  have b26 : (k == "ogg") = false := by simp [h26]
  have b27 : (k == "mp4") = false := by simp [h27]
  have b28 : (k == "mkv") = false := by simp [h28]
  have b29 : (k == "avi") = false := by simp [h29]
  have b30 : (k == "mov") = false := by simp [h30]
  have b31 : (k == "exe") = false := by simp [h31]
  have b32 : (k == "bin") = false := by simp [h32]
  have b33 : (k == "toml") = false := by simp [h33]
  have b34 : (k == "yaml") = false := by simp [h34]
  have b35 : (k == "yml") = false := by simp [h35]
  have b36 : (k == "ini") = false := by simp [h36]
  have b37 : (k == "conf") = false := by simp [h37]
  have b38 : (k == "c") = false := by simp [h38]
  have b39 : (k == "h") = false := by simp [h39]
  have b40 : (k == "cpp") = false := by simp [h40]
  have b41 : (k == "cc") = false := by simp [h41]
  have b42 : (k == "cxx") = false := by simp [h42]
  have b43 : (k == "hpp") = false := by simp [h43]
  have b44 : (k == "java") = false := by simp [h44]
  have b45 : (k == "php") = false := by simp [h45]
  have b46 : (k == "rb") = false := by simp [h46]
  have b47 : (k == "go") = false := by simp [h47]
  have b48 : (k == "sh") = false := by simp [h48]
  have b49 : (k == "bash") = false := by simp [h49]
  have b50 : (k == "zsh") = false := by simp [h50]
  have b51 : (k == "sql") = false := by simp [h51]
  have b52 : (k == "xml") = false := by simp [h52]
  have b53 : (k == "log") = false := by simp [h53]
  have b54 : (k == "lock") = false := by simp [h54]
  have b55 : (k == "dockerfile") = false := by simp [h55]
  have b56 : (k == "vue") = false := by simp [h56]
  have b57 : (k == "react") = false := by simp [h57]
  have b58 : (k == "jsx") = false := by simp [h58]
  have b59 : (k == "tsx") = false := by simp [h59]
  have b60 : (k == "git") = false := by simp [h60]
  have b61 : (k == "node") = false := by simp [h61]
  have b62 : (k == "npm") = false := by simp [h62]
  have b63 : (k == "yarn") = false := by simp [h63]
  have b64 : (k == "docker") = false := by simp [h64]
  simp [icon_for, icon_table, List.lookup, h1, h2, h3, h4, h5, h6, h7, h8, h9, h10, h11, h12, h13, h14, h15, h16, h17, h18, h19, h20, h21, h22, h23, h24, h25, h26, h27, h28, h29, h30, h31, h32, h33, h34, h35, h36, h37, h38, h39, h40, h41, h42, h43, h44, h45, h46, h47, h48, h49, h50, h51, h52, h53, h54, h55, h56, h57, h58, h59, h60, h61, h62, h63, h64, b1, b2, b3, b4, b5, b6, b7, b8, b9, b10, b11, b12, b13, b14, b15, b16, b17, b18, b19, b20, b21, b22, b23, b24, b25, b26, b27, b28, b29, b30, b31, b32, b33, b34, b35, b36, b37, b38, b39, b40, b41, b42, b43, b44, b45, b46, b47, b48, b49, b50, b51, b52, b53, b54, b55, b56, b57, b58, b59, b60, b61, b62, b63, b64]

/-- C9: `get_file_icon` is a pure total function: directories always get the
folder glyph; a file whose lower-cased extension is in the static table gets
that table entry's glyph; a file whose extension misses the table gets the
distinct hidden glyph when its name starts with `'.'` and the generic glyph
otherwise. -/
theorem icon_pure_total_table (name : String) :
    get_file_icon name true = glyph_folder
  ∧ (∀ g, icon_table.lookup (lower_string (file_extension name)) = some g →
      get_file_icon name false = g)
  ∧ (icon_table.lookup (lower_string (file_extension name)) = none →
      get_file_icon name false =
        if starts_with_char name '.' then glyph_hidden else glyph_generic)
  ∧ glyph_hidden ≠ glyph_generic
  ∧ glyph_folder ≠ glyph_hidden ∧ glyph_folder ≠ glyph_generic := by
  refine ⟨rfl, ?_, ?_, by decide, by decide, by decide⟩
  · intro g hg
    unfold get_file_icon
    rw [if_neg (by decide), icon_for_eq_lookup, hg]
  · intro hn
    unfold get_file_icon
    rw [if_neg (by decide), icon_for_eq_lookup, hn]

/-- C9 witness: a recognized extension (case-insensitively), and a hidden
name with no recognized extension. -/
theorem icon_pure_total_table_witness :
    get_file_icon "x.RS" false = glyph_rust
  ∧ get_file_icon ".bashrc" false =
      (if starts_with_char ".bashrc" '.' then glyph_hidden else glyph_generic) := by
  constructor
  · exact (icon_pure_total_table "x.RS").2.1 glyph_rust (by decide)
  · exact (icon_pure_total_table ".bashrc").2.2.1 (by decide)

/-! ## C4 helpers: the comparator is a total preorder -/

/-- Swapping the arguments of the lexicographic comparison swaps the
verdict. -/
theorem cmp_chars_swap : ∀ xs ys : List Char, cmp_chars ys xs = (cmp_chars xs ys).swap := by
  intro xs
  induction xs with
  | nil => intro ys; cases ys <;> rfl
  | cons a xs ih =>
    intro ys
    cases ys with
    | nil => rfl
    | cons b ys =>
      simp only [cmp_chars]
      by_cases hab : a < b
      · simp [hab, lt_asymm hab, Ordering.swap]
      · by_cases hba : b < a
        · simp [hab, hba, Ordering.swap]
        · simp [hab, hba, ih]

/-- The may-precede relation of the comparator is total. -/
theorem cmp_chars_isLE_total (xs ys : List Char) :
    (cmp_chars xs ys).isLE = true ∨ (cmp_chars ys xs).isLE = true := by
  rw [cmp_chars_swap xs ys]
  cases cmp_chars xs ys <;> simp [Ordering.swap, Ordering.isLE]

/-- The may-precede relation of the comparator is transitive. -/
theorem cmp_chars_isLE_trans :
    ∀ xs ys zs : List Char, (cmp_chars xs ys).isLE = true →
      (cmp_chars ys zs).isLE = true → (cmp_chars xs zs).isLE = true := by
  intro xs
  induction xs with
  | nil =>
    intro ys zs h1 h2
    cases zs <;> simp [cmp_chars, Ordering.isLE]
  | cons a xs ih =>
    intro ys zs h1 h2
    cases ys with
    | nil => simp [cmp_chars, Ordering.isLE] at h1
    | cons b ys =>
      cases zs with
      | nil => simp [cmp_chars, Ordering.isLE] at h2
      | cons c zs =>
        simp only [cmp_chars] at h1 h2 ⊢
        by_cases hab : a < b
        · by_cases hbc : b < c
          · rw [if_pos (lt_trans hab hbc)]
            rfl
          · by_cases hcb : c < b
            · rw [if_neg hbc, if_pos hcb] at h2
              exact Bool.noConfusion h2
            · have hbc2 : b = c := le_antisymm (not_lt.mp hcb) (not_lt.mp hbc)
              subst hbc2
              rw [if_pos hab]
              rfl
        · by_cases hba : b < a
          · rw [if_neg hab, if_pos hba] at h1
            exact Bool.noConfusion h1
          · rw [if_neg hab, if_neg hba] at h1
            have hab2 : a = b := le_antisymm (not_lt.mp hba) (not_lt.mp hab)
            subst hab2
            by_cases hac : a < c
            · rw [if_pos hac]
              rfl
            · by_cases hca : c < a
              · rw [if_neg hac, if_pos hca] at h2
                exact Bool.noConfusion h2
              · rw [if_neg hac, if_neg hca] at h2
                rw [if_neg hac, if_neg hca]
                exact ih ys zs h1 h2

/-- The comparator judges equal keys as equivalent. -/
theorem cmp_chars_self : ∀ xs : List Char, cmp_chars xs xs = Ordering.eq := by
  intro xs
  induction xs with
  | nil => rfl
  | cons a xs ih => simp [cmp_chars, lt_irrefl, ih]

/-- The `isLE` verdicts are exactly the non-`gt` verdicts. -/
theorem isLE_ne_gt (o : Ordering) (h : o.isLE = true) : o ≠ Ordering.gt := by
  cases o <;> simp_all [Ordering.isLE]

/-- The entry comparator's may-precede relation is total. -/
theorem entry_le_total (cfg : Config) (a b : FileEntry) :
    entry_le cfg a b = true ∨ entry_le cfg b a = true := by
  unfold entry_le cmp_entries
  by_cases hd : cfg.sort_dirs_first = true
  · rw [if_pos hd, if_pos hd]
    cases ha : a.is_dir <;> cases hb : b.is_dir <;>
      first
        | exact cmp_chars_isLE_total _ _
        | exact Or.inl rfl
        | exact Or.inr rfl
  · rw [if_neg hd, if_neg hd]
    exact cmp_chars_isLE_total _ _

/-- The entry comparator's may-precede relation is transitive. -/
theorem entry_le_trans (cfg : Config) (a b c : FileEntry) :
    entry_le cfg a b = true → entry_le cfg b c = true → entry_le cfg a c = true := by
  unfold entry_le cmp_entries
  by_cases hd : cfg.sort_dirs_first = true
  · rw [if_pos hd, if_pos hd, if_pos hd]
    cases ha : a.is_dir <;> cases hb : b.is_dir <;> cases hc : c.is_dir <;>
      intro h1 h2 <;>
      first
        | exact cmp_chars_isLE_trans _ _ _ h1 h2
        | rfl
        | exact Bool.noConfusion h1
        | exact Bool.noConfusion h2
  · rw [if_neg hd, if_neg hd, if_neg hd]
    exact cmp_chars_isLE_trans _ _ _

/-- Equal sort keys (same directory-ness and same lower-cased name) are
`may-precede`-equivalent in both configurations. -/
theorem entry_le_of_eq_keys (cfg : Config) (a b : FileEntry)
    (hd : a.is_dir = b.is_dir) (hk : name_key a = name_key b) :
    entry_le cfg a b = true := by
  unfold entry_le cmp_entries
  by_cases hsd : cfg.sort_dirs_first = true
  · rw [if_pos hsd, hd]
    cases hb : b.is_dir <;> rw [hk, cmp_chars_self] <;> rfl
  · rw [if_neg hsd, hk, cmp_chars_self]
    rfl

/-! ## C4 helpers: the insertion model of the stable sort
(the scoped `~` and `<+` notations for `List.Perm` and `List.Sublist` are
used from here on) -/

open List

/-- Inserting permutes to consing. -/
theorem stable_insert_perm {α : Type} (le : α → α → Bool) (x : α) (l : List α) :
    stable_insert le x l ~ x :: l := by
  induction l with
  | nil => exact List.Perm.refl _
  | cons y ys ih =>
    unfold stable_insert
    by_cases h : le x y = true
    · rw [if_pos h]
    · rw [if_neg h]
      exact (List.Perm.cons y ih).trans (List.Perm.swap x y ys)

/-- The sort permutes its input. -/
theorem stable_sort_perm {α : Type} (le : α → α → Bool) (l : List α) :
    stable_sort le l ~ l := by
  induction l with
  | nil => exact List.Perm.refl _
  | cons x xs ih =>
    exact (stable_insert_perm le x (stable_sort le xs)).trans (List.Perm.cons x ih)

/-- Insertion preserves sortedness (for a total, transitive may-precede
relation). -/
theorem stable_insert_pairwise {α : Type} (le : α → α → Bool)
    (total : ∀ a b, le a b = true ∨ le b a = true)
    (trans : ∀ a b c, le a b = true → le b c = true → le a c = true)
    (x : α) (l : List α) (hl : l.Pairwise (fun a b => le a b = true)) :
    (stable_insert le x l).Pairwise (fun a b => le a b = true) := by
  induction l with
  | nil => simp [stable_insert]
  | cons y ys ih =>
    rw [List.pairwise_cons] at hl
    obtain ⟨hy, hys⟩ := hl
    unfold stable_insert
    by_cases h : le x y = true
    · rw [if_pos h, List.pairwise_cons]
      constructor
      · intro z hz
        rcases List.mem_cons.mp hz with rfl | hz'
        · exact h
        · exact trans x y z h (hy z hz')
      · exact List.Pairwise.cons hy hys
    · rw [if_neg h, List.pairwise_cons]
      constructor
      · intro z hz
        have hmem : z = x ∨ z ∈ ys := by
          simpa using (stable_insert_perm le x ys).mem_iff.mp hz
        rcases hmem with rfl | hz'
        · rcases total z y with ht | ht
          · exact absurd ht h
          · exact ht
        · exact hy z hz'
      · exact ih hys

/-- The sort's output is pairwise may-precede ordered. -/
theorem stable_sort_pairwise {α : Type} (le : α → α → Bool)
    (total : ∀ a b, le a b = true ∨ le b a = true)
    (trans : ∀ a b c, le a b = true → le b c = true → le a c = true)
    (l : List α) :
    (stable_sort le l).Pairwise (fun a b => le a b = true) := by
  induction l with
  | nil => simp [stable_sort]
  | cons x xs ih => exact stable_insert_pairwise le total trans x _ ih

/-- Insertion preserves sublists of the original list. -/
theorem sublist_stable_insert {α : Type} (le : α → α → Bool) (x : α) :
    ∀ (s t : List α), s <+ t → s <+ stable_insert le x t := by
  intro s t h
  induction t generalizing s with
  | nil =>
    cases h
    exact List.nil_sublist _
  | cons y ys ih =>
    unfold stable_insert
    by_cases hle : le x y = true
    · rw [if_pos hle]
      exact h.cons x
    · rw [if_neg hle]
      cases h with
      | cons _ h2 => exact (ih _ h2).cons y
      | cons₂ _ h2 => exact (ih _ h2).cons₂ y

/-- Inserting `x` in front of a member it may precede keeps `x` before that
member. -/
theorem mem_sublist_stable_insert {α : Type} (le : α → α → Bool) (x b : α)
    (hxb : le x b = true) :
    ∀ (t : List α), b ∈ t → [x, b] <+ stable_insert le x t := by
  intro t
  induction t with
  | nil => intro h; cases h
  | cons y ys ih =>
    intro hb
    unfold stable_insert
    by_cases hle : le x y = true
    · rw [if_pos hle]
      exact List.Sublist.cons₂ x (List.singleton_sublist.mpr hb)
    · rw [if_neg hle]
      rcases List.mem_cons.mp hb with rfl | hb2
      · exact absurd hxb hle
      · exact (ih hb2).cons y

/-- Stability: a pair that appears in order in the input and whose first
component may precede the second stays in order in the output. -/
theorem stable_sort_stable {α : Type} (le : α → α → Bool) :
    ∀ (l : List α) (a b : α), [a, b] <+ l → le a b = true →
      [a, b] <+ stable_sort le l := by
  intro l
  induction l with
  | nil =>
    intro a b h
    simp at h
  | cons x xs ih =>
    intro a b h hab
    unfold stable_sort
    cases h with
    | cons _ h2 => exact sublist_stable_insert le x _ _ (ih a b h2 hab)
    | cons₂ _ h2 =>
      have hb : b ∈ stable_sort le xs :=
        (stable_sort_perm le xs).mem_iff.mpr (List.singleton_sublist.mp h2)
      exact mem_sublist_stable_insert le x b hab _ hb

/-! ## C4 -/

/-- C4: the entry ordering is a stable sort: the output permutes the input;
with `sort_dirs_first` every directory precedes every non-directory and
entries of equal directory-ness are in case-insensitive name order; without
it the case-insensitive name order applies across all entries; entries with
identical keys (same directory-ness and identical case-insensitive names)
keep their input order; and on the concrete directory
`["b.txt", "A", "a.rs"]` with `A` a directory the output order is
`A, a.rs, b.txt`. -/
theorem ordering_stable_sort (cfg : Config) (l : List FileEntry) :
    sort_entries cfg l ~ l
  ∧ (cfg.sort_dirs_first = true →
      (sort_entries cfg l).Pairwise (fun a b =>
        (b.is_dir = true → a.is_dir = true)
        ∧ (a.is_dir = b.is_dir → cmp_chars (name_key a) (name_key b) ≠ Ordering.gt)))
  ∧ (cfg.sort_dirs_first = false →
      (sort_entries cfg l).Pairwise (fun a b =>
        cmp_chars (name_key a) (name_key b) ≠ Ordering.gt))
  ∧ (∀ a b, a.is_dir = b.is_dir → name_key a = name_key b →
      [a, b] <+ l → [a, b] <+ sort_entries cfg l)
  ∧ (sort_entries default_config
      [FileEntry.new "b.txt" ⟨420, 0, 0, none, false⟩ ⟨[], []⟩ default_config 0,
       FileEntry.new "A" ⟨493, 0, 0, none, true⟩ ⟨[], []⟩ default_config 0,
       FileEntry.new "a.rs" ⟨420, 0, 0, none, false⟩ ⟨[], []⟩ default_config 0]).map
        FileEntry.name = ["A", "a.rs", "b.txt"] := by
  refine ⟨stable_sort_perm _ l, ?_, ?_, ?_, by decide⟩
  · intro hd
    have hp := stable_sort_pairwise (entry_le cfg) (entry_le_total cfg) (entry_le_trans cfg) l
    refine List.Pairwise.imp ?_ hp
    intro a b h
    unfold entry_le cmp_entries at h
    rw [if_pos hd] at h
    constructor
    · intro hb
      cases ha : a.is_dir with
      | true => rfl
      | false =>
        rw [ha, hb] at h
        exact Bool.noConfusion h
    · intro hab
      cases hb : b.is_dir with
      | true =>
        rw [hab, hb] at h
        exact isLE_ne_gt _ h
      | false =>
        rw [hab, hb] at h
        exact isLE_ne_gt _ h
  · intro hd
    have hp := stable_sort_pairwise (entry_le cfg) (entry_le_total cfg) (entry_le_trans cfg) l
    refine List.Pairwise.imp ?_ hp
    intro a b h
    unfold entry_le cmp_entries at h
    rw [if_neg (by simp [hd])] at h
    exact isLE_ne_gt _ h
  · intro a b hd hk hsub
    exact stable_sort_stable (entry_le cfg) l a b hsub (entry_le_of_eq_keys cfg a b hd hk)

/-- C4 witness: two files with identical case-insensitive names keep their
enumeration order through the sort. -/
theorem ordering_stable_sort_witness :
    [(⟨"A", "644", "r", "g", "now", "i", false⟩ : FileEntry),
     ⟨"a", "600", "r", "g", "now", "i", false⟩] <+
      sort_entries default_config
        [⟨"A", "644", "r", "g", "now", "i", false⟩,
         ⟨"a", "600", "r", "g", "now", "i", false⟩] :=
  (ordering_stable_sort default_config
    [⟨"A", "644", "r", "g", "now", "i", false⟩,
     ⟨"a", "600", "r", "g", "now", "i", false⟩]).2.2.2.1
    ⟨"A", "644", "r", "g", "now", "i", false⟩
    ⟨"a", "600", "r", "g", "now", "i", false⟩ rfl (by decide) (List.Sublist.refl _)

/-! ## C10 -/

/-- C10: `long_format` is parsed into the configuration but read nowhere
afterwards: two configurations differing only in `long_format` produce
identical output for every directory snapshot — the same header, the same
empty-directory message, and the same rendered line for every entry. -/
theorem long_format_no_influence (cfg : Config) (b : Bool) (dir_name : String)
    (raw : List (String × Option Metadata)) (cache : NameCache) (now : Int) :
    list_directory { cfg with long_format := b } dir_name raw cache now
      = list_directory cfg dir_name raw cache now
  ∧ (parse_config default_config "long_format=true").long_format = true
  ∧ (parse_config default_config "long_format=off").long_format = false := by
  refine ⟨?_, by decide, by decide⟩
  cases cfg
  rfl
